import Mathlib

/-
  Shallow embedding of the ledger / reconciliation engine of app.py:
  the tables (trips, expenses, deposits), the totals calculator
  `calc_user_totals`, the statement builder `fetch_user_statement`
  (UNION ALL of deposits and expenses, ORDER BY date ASC, type DESC),
  and the admin status-transition route `admin_set_expense_status`.

  Dates are TEXT (YYYY-MM-DD) compared bytewise by SQLite; we model them
  as `String` with codepoint-lexicographic comparison (`charsLt`), which
  agrees with memcmp on the strings the system uses.  Monetary amounts
  are modelled as exact rationals.
-/

namespace RBN

structure Trip where
  id : Nat
  user_id : Nat
  title : String
deriving DecidableEq

structure Expense where
  id : Nat
  trip_id : Nat
  user_id : Nat
  date : String
  category : String
  description : String
  amount : ℚ
  status : String
deriving DecidableEq

structure Deposit where
  id : Nat
  user_id : Nat
  trip_id : Option Nat
  amount : ℚ
  date : String
  note : String
deriving DecidableEq

structure Store where
  trips : List Trip
  expenses : List Expense
  deposits : List Deposit
deriving DecidableEq

/-- Lexicographic (bytewise, as SQLite memcmp on TEXT) strict comparison
of character lists. -/
def charsLt : List Char → List Char → Bool
  | [], [] => false
  | [], _ :: _ => true
  | _ :: _, [] => false
  | a :: as, b :: bs =>
    if a.toNat < b.toNat then true
    else if b.toNat < a.toNat then false
    else charsLt as bs

def strLtB (a b : String) : Bool := charsLt a.data b.data

def strLeB (a b : String) : Bool := !(strLtB b a)

/-- Python truthiness of an optional string parameter (`if start and end:`):
`None` and the empty string are falsy. -/
def truthy : Option String → Bool
  | none => false
  | some s => !(s == "")

/-- The period filter used by both queries: `date BETWEEN start AND end`
is added to the WHERE clause only when `start and end` are truthy. -/
def inPeriod (start end_ : Option String) (d : String) : Bool :=
  if truthy start && truthy end_ then
    strLeB (start.getD "") d && strLeB d (end_.getD "")
  else true

/-- WHERE clause for deposits: `user_id=?` plus the optional period filter. -/
def depMatches (uid : Nat) (start end_ : Option String) (d : Deposit) : Bool :=
  d.user_id == uid && inPeriod start end_ d.date

/-- WHERE clause for expenses: `user_id=?`, the optional period filter, and
`status!='rejeitado'` unless `include_rejected`. -/
def expMatches (uid : Nat) (start end_ : Option String) (include_rejected : Bool)
    (e : Expense) : Bool :=
  e.user_id == uid && inPeriod start end_ e.date
    && (include_rejected || !(e.status == "rejeitado"))

structure Totals where
  deposits : ℚ
  expenses : ℚ
  balance : ℚ
deriving DecidableEq

/-- `calc_user_totals` of app.py: SUM(amount) over the filtered deposits,
SUM(amount) over the filtered expenses, balance = deposits - expenses. -/
def calc_user_totals (s : Store) (user_id : Nat) (start end_ : Option String)
    (include_rejected : Bool) : Totals :=
  { deposits := ((s.deposits.filter (depMatches user_id start end_)).map Deposit.amount).sum
    expenses := ((s.expenses.filter
        (expMatches user_id start end_ include_rejected)).map Expense.amount).sum
    balance := ((s.deposits.filter (depMatches user_id start end_)).map Deposit.amount).sum
      - ((s.expenses.filter
          (expMatches user_id start end_ include_rejected)).map Expense.amount).sum }

/-- One row of the unified statement (`{date, type, description, trip,
status, amount}`). -/
structure Entry where
  date : String
  type : String
  description : String
  trip : String
  status : String
  amount : ℚ
deriving DecidableEq

/-- Deposit SELECT of the UNION ALL: LEFT JOIN trips, label `COALESCE`d to
a dash, empty status, positive amount. -/
def depRow (s : Store) (d : Deposit) : Entry :=
  { date := d.date
    type := "Depósito"
    description := d.note
    trip :=
      match d.trip_id with
      | none => "—"
      | some tid =>
        match s.trips.find? (fun t => t.id == tid) with
        | some t => t.title
        | none => "—"
    status := ""
    amount := d.amount }

/-- Expense SELECT of the UNION ALL: INNER JOIN trips (an expense whose
trip is missing produces no row), composite description, negated amount. -/
def expRow (s : Store) (e : Expense) : Option Entry :=
  (s.trips.find? (fun t => t.id == e.trip_id)).map fun t =>
    { date := e.date
      type := "Despesa"
      description := e.category ++ (if e.description == "" then "" else " • " ++ e.description)
      trip := t.title
      status := e.status
      amount := -e.amount }

/-- The comparator realising `ORDER BY date ASC, type DESC`: `a` may come
before `b` iff `a.date < b.date`, or the dates are equal and `a.type` is
not smaller than `b.type`. -/
def entLe (a b : Entry) : Bool :=
  strLtB a.date b.date
    || (!(strLtB a.date b.date) && !(strLtB b.date a.date) && strLeB b.type a.type)

def entR (a b : Entry) : Prop := entLe a b = true

instance : DecidableRel entR := fun a b => inferInstanceAs (Decidable (entLe a b = true))

def depRows (s : Store) (uid : Nat) (start end_ : Option String) : List Entry :=
  (s.deposits.filter (depMatches uid start end_)).map (depRow s)

def expRows (s : Store) (uid : Nat) (start end_ : Option String)
    (include_rejected : Bool) : List Entry :=
  (s.expenses.filter (expMatches uid start end_ include_rejected)).filterMap (expRow s)

/-- The UNION ALL result before ORDER BY: deposit rows then expense rows. -/
def statementRows (s : Store) (uid : Nat) (start end_ : Option String)
    (include_rejected : Bool) : List Entry :=
  depRows s uid start end_ ++ expRows s uid start end_ include_rejected

/-- `fetch_user_statement` of app.py: the UNION ALL rows sorted by
`date ASC, type DESC`. -/
def fetch_user_statement (s : Store) (user_id : Nat) (start end_ : Option String)
    (include_rejected : Bool) : List Entry :=
  List.insertionSort entR (statementRows s user_id start end_ include_rejected)

/-- Effect of `UPDATE expenses SET status=? WHERE id=?` on one row. -/
def updExp (expense_id : Nat) (status : String) (e : Expense) : Expense :=
  if e.id == expense_id then { e with status := status } else e

/-- `admin_set_expense_status` of app.py: abort(400) on a status outside
the three valid values, otherwise an unconditional UPDATE (no existence
check on the expense id). -/
def admin_set_expense_status (s : Store) (expense_id : Nat) (status : String) :
    Except Nat Store :=
  if !(status == "aprovado" || status == "rejeitado" || status == "pendente") then
    Except.error 400
  else
    Except.ok { s with expenses := s.expenses.map (updExp expense_id status) }

/- Concrete ledger states used to witness or refute the claims. -/

def w1trip : Trip := ⟨1, 1, "SP"⟩
def w1exp : Expense := ⟨1, 1, 1, "2024-01-10", "alimentação", "", 30, "aprovado"⟩
def w1dep : Deposit := ⟨1, 1, some 1, 100, "2024-01-05", ""⟩
def w1store : Store := ⟨[w1trip], [w1exp], [w1dep]⟩

def c2trip : Trip := ⟨1, 1, "Viagem RJ"⟩
def c2exp : Expense := ⟨1, 1, 1, "2024-03-10", "taxi", "", 40, "pendente"⟩
def c2dep : Deposit := ⟨1, 1, none, 200, "2024-03-10", "aporte"⟩
def c2store : Store := ⟨[c2trip], [c2exp], [c2dep]⟩

def w3dep : Deposit := ⟨1, 1, none, 75, "2024-02-02", "adiantamento"⟩
def w3store : Store := ⟨[], [], [w3dep]⟩

def c4e1 : Expense := ⟨1, 1, 1, "2024-05-02", "hotel", "", 100, "aprovado"⟩
def c4e2 : Expense := ⟨2, 1, 1, "2024-05-03", "taxi", "", 50, "rejeitado"⟩
def c4dep : Deposit := ⟨1, 1, none, 20, "2024-05-04", ""⟩
def c4store : Store := ⟨[⟨1, 1, "T"⟩], [c4e1, c4e2], [c4dep]⟩

def c5exp : Expense := ⟨1, 1, 1, "2024-02-01", "hotel", "", 80, "pendente"⟩
def c5store : Store := ⟨[⟨1, 1, "T"⟩], [c5exp], []⟩

def w6exp : Expense := ⟨3, 1, 1, "2024-06-01", "hotel", "", 60, "pendente"⟩
def w6store : Store := ⟨[⟨1, 1, "T"⟩], [w6exp], []⟩
def w6store₁ : Store := ⟨[⟨1, 1, "T"⟩], [⟨3, 1, 1, "2024-06-01", "hotel", "", 60, "rejeitado"⟩], []⟩

def w7exp : Expense := ⟨1, 1, 1, "2024-07-01", "taxi", "", 10, "rejeitado"⟩
def w7store : Store := ⟨[⟨1, 1, "T"⟩], [w7exp], []⟩

def c8dep : Deposit := ⟨1, 1, none, 10, "2024-01-15", ""⟩
def c8store : Store := ⟨[], [], [c8dep]⟩

/- Basic facts about the bytewise string comparison. -/

theorem charsLt_asymm : ∀ {a b : List Char}, charsLt a b = true → charsLt b a = false := by
  intro a
  induction a with
  | nil =>
    intro b h
    cases b with
    | nil => simp [charsLt] at h
    | cons x xs => simp [charsLt]
  | cons x xs ih =>
    intro b h
    cases b with
    | nil => simp [charsLt] at h
    | cons y ys =>
      simp only [charsLt] at h ⊢
      by_cases h1 : x.toNat < y.toNat
      · have h2 : ¬ y.toNat < x.toNat := Nat.lt_asymm h1
        simp [h1, h2]
      · by_cases h2 : y.toNat < x.toNat
        · simp [h1, h2] at h
        · simp only [h1, h2, if_false] at h ⊢
          exact ih h

theorem charsLt_conn : ∀ {b a : List Char}, charsLt b a = true →
    ∀ d, charsLt b d = true ∨ charsLt d a = true := by
  intro b
  induction b with
  | nil =>
    intro a h d
    cases a with
    | nil => simp [charsLt] at h
    | cons z zs =>
      cases d with
      | nil => right; simp [charsLt]
      | cons x xs => left; simp [charsLt]
  | cons y ys ih =>
    intro a h d
    cases a with
    | nil => simp [charsLt] at h
    | cons z zs =>
      cases d with
      | nil => right; simp [charsLt]
      | cons x xs =>
        simp only [charsLt] at h ⊢
        by_cases hyz : y.toNat < z.toNat
        · by_cases hyx : y.toNat < x.toNat
          · left; simp [hyx]
          · right
            have hxz : x.toNat < z.toNat := lt_of_le_of_lt (Nat.le_of_not_lt hyx) hyz
            simp [hxz]
        · by_cases hzy : z.toNat < y.toNat
          · simp [hyz, hzy] at h
          · have h' : charsLt ys zs = true := by simpa [hyz, hzy] using h
            by_cases hyx : y.toNat < x.toNat
            · left; simp [hyx]
            · by_cases hxy : x.toNat < y.toNat
              · right
                have hxz : x.toNat < z.toNat := lt_of_lt_of_le hxy (Nat.le_of_not_lt hzy)
                simp [hxz]
              · have hxz : ¬ x.toNat < z.toNat := by omega
                have hzx : ¬ z.toNat < x.toNat := by omega
                rcases ih h' xs with h1 | h1
                · left; simpa [hyx, hxy] using h1
                · right; simpa [hxz, hzx] using h1

theorem strLt_asymm {a b : String} (h : strLtB a b = true) : strLtB b a = false :=
  charsLt_asymm h

theorem strLt_conn {b a : String} (h : strLtB b a = true) (d : String) :
    strLtB b d = true ∨ strLtB d a = true :=
  charsLt_conn h d.data

theorem strLeB_trans {a b c : String} (h1 : strLeB a b = true) (h2 : strLeB b c = true) :
    strLeB a c = true := by
  simp only [strLeB, Bool.not_eq_true'] at h1 h2 ⊢
  by_contra hc
  have hc' : strLtB c a = true := by
    cases hca : strLtB c a
    · exact absurd hca hc
    · rfl
  rcases strLt_conn hc' b with h | h
  · rw [h2] at h; exact Bool.false_ne_true h
  · rw [h1] at h; exact Bool.false_ne_true h

theorem strLeB_total (a b : String) : strLeB a b = true ∨ strLeB b a = true := by
  cases h : strLtB b a
  · left; simp [strLeB, h]
  · right; simp [strLeB, strLt_asymm h]

/- The statement comparator is total and transitive. -/

theorem entLe_total (a b : Entry) : entLe a b = true ∨ entLe b a = true := by
  simp only [entLe]
  cases hab : strLtB a.date b.date
  · cases hba : strLtB b.date a.date
    · rcases strLeB_total a.type b.type with h | h
      · right; simp [hab, hba, h]
      · left; simp [hab, hba, h]
    · right; simp [hba]
  · left; simp [hab]

theorem entLe_trans {a b c : Entry} (h1 : entLe a b = true) (h2 : entLe b c = true) :
    entLe a c = true := by
  simp only [entLe, Bool.or_eq_true, Bool.and_eq_true, Bool.not_eq_true'] at h1 h2 ⊢
  rcases h1 with h1 | ⟨⟨hab, hba⟩, ht1⟩
  · rcases h2 with h2 | ⟨⟨hbc, hcb⟩, _⟩
    · left
      rcases strLt_conn h1 c.date with h | h
      · exact h
      · rw [strLt_asymm h2] at h; exact absurd h (Bool.false_ne_true)
    · left
      rcases strLt_conn h1 c.date with h | h
      · exact h
      · rw [hcb] at h; exact absurd h (Bool.false_ne_true)
  · rcases h2 with h2 | ⟨⟨hbc, hcb⟩, ht2⟩
    · left
      rcases strLt_conn h2 a.date with h | h
      · rw [hba] at h; exact absurd h (Bool.false_ne_true)
      · exact h
    · right
      refine ⟨⟨?_, ?_⟩, strLeB_trans ht2 ht1⟩
      · cases hac : strLtB a.date c.date
        · rfl
        · rcases strLt_conn hac b.date with h | h
          · rw [hab] at h; exact absurd h (Bool.false_ne_true)
          · rw [hbc] at h; exact absurd h (Bool.false_ne_true)
      · cases hca : strLtB c.date a.date
        · rfl
        · rcases strLt_conn hca b.date with h | h
          · rw [hcb] at h; exact absurd h (Bool.false_ne_true)
          · rw [hba] at h; exact absurd h (Bool.false_ne_true)

/- Summing the signed amounts of the two halves of the UNION ALL. -/

theorem sum_depRows (s : Store) (l : List Deposit) :
    ((l.map (depRow s)).map Entry.amount).sum = (l.map Deposit.amount).sum := by
  rw [List.map_map]
  rfl

theorem sum_expRows (s : Store) : ∀ l : List Expense,
    (∀ e ∈ l, (s.trips.find? (fun t => t.id == e.trip_id)).isSome = true) →
    ((l.filterMap (expRow s)).map Entry.amount).sum = -((l.map Expense.amount).sum) := by
  intro l
  induction l with
  | nil => intro _; simp
  | cons e l ih =>
    intro h
    have he := h e (List.mem_cons_self e l)
    obtain ⟨t, ht⟩ := Option.isSome_iff_exists.mp he
    have hrow : expRow s e = some
        { date := e.date
          type := "Despesa"
          description := e.category ++ (if e.description == "" then "" else " • " ++ e.description)
          trip := t.title
          status := e.status
          amount := -e.amount } := by
      rw [expRow, ht, Option.map_some']
    rw [List.map_cons, List.sum_cons, List.filterMap_cons, hrow]
    rw [List.map_cons, List.sum_cons, ih (fun e' he' => h e' (List.mem_cons_of_mem e he'))]
    push_cast
    ring

/-- C1: for every user, period (absent or a [start, end] range) and
includeRejected flag, the sum of the signed amounts of the entries returned
by `fetch_user_statement` equals the `balance` field returned by
`calc_user_totals` for the same arguments.  The hypothesis is the schema
invariant that every expense's trip exists (expenses are created against an
existing trip and trips are never deleted); the statement query INNER JOINs
trips while the totals query does not. -/
theorem balance_equivalence (s : Store) (uid : Nat) (start end_ : Option String) (inc : Bool)
    (h : ∀ e ∈ s.expenses, (s.trips.find? (fun t => t.id == e.trip_id)).isSome = true) :
    ((fetch_user_statement s uid start end_ inc).map Entry.amount).sum
      = (calc_user_totals s uid start end_ inc).balance := by
  have hperm : List.Perm (fetch_user_statement s uid start end_ inc)
      (statementRows s uid start end_ inc) :=
    List.perm_insertionSort entR _
  rw [(hperm.map Entry.amount).sum_eq]
  rw [statementRows, List.map_append, List.sum_append]
  rw [depRows, sum_depRows]
  rw [expRows, sum_expRows s _ (fun e he => h e (List.mem_of_mem_filter he))]
  simp only [calc_user_totals]
  ring

/-- C1 witness: the balance equivalence evaluated on a concrete store
holding one trip, one approved expense and one deposit. -/
theorem balance_equivalence_witness :
    (∀ e ∈ w1store.expenses, (w1store.trips.find? (fun t => t.id == e.trip_id)).isSome = true)
      ∧ ((fetch_user_statement w1store 1 none none false).map Entry.amount).sum
          = (calc_user_totals w1store 1 none none false).balance :=
  ⟨by decide, balance_equivalence w1store 1 none none false (by decide)⟩

/-- C2 counterexample: on a store holding one deposit and one expense that
share the date 2024-03-10, the statement lists the expense entry first and
the deposit entry second — `ORDER BY type DESC` sorts the string 'Despesa'
before 'Depósito' — so the claimed deposit-before-expense tie-break is
false. -/
theorem statement_order_cex :
    (fetch_user_statement c2store 1 none none false).map (fun x => (x.type, x.date))
        = [("Despesa", "2024-03-10"), ("Depósito", "2024-03-10")]
      ∧ ¬((fetch_user_statement c2store 1 none none false).map (fun x => (x.type, x.date))
        = [("Depósito", "2024-03-10"), ("Despesa", "2024-03-10")]) := by
  constructor
  · decide
  · decide

theorem entR_date_not_gt {a b : Entry} (h : entR a b) : strLtB b.date a.date = false := by
  simp only [entR, entLe, Bool.or_eq_true, Bool.and_eq_true, Bool.not_eq_true'] at h
  rcases h with h | ⟨⟨_, hba⟩, _⟩
  · exact strLt_asymm h
  · exact hba

/-- C2 amended: the statement is a permutation of the UNION ALL rows
(so tied entries all still appear) and is sorted by date ascending with
ties broken by `type` DESCENDING — which places expense-type rows
('Despesa') before deposit-type rows ('Depósito') when dates are equal,
the opposite tie-break of the one claimed.  In particular dates are
non-decreasing along the returned sequence. -/
theorem statement_sorted (s : Store) (uid : Nat) (start end_ : Option String) (inc : Bool) :
    List.Sorted entR (fetch_user_statement s uid start end_ inc)
      ∧ List.Perm (fetch_user_statement s uid start end_ inc)
          (statementRows s uid start end_ inc)
      ∧ List.Pairwise (fun a b : Entry => strLtB b.date a.date = false)
          (fetch_user_statement s uid start end_ inc) := by
  haveI : IsTotal Entry entR := ⟨entLe_total⟩
  haveI : IsTrans Entry entR := ⟨fun _ _ _ => entLe_trans⟩
  refine ⟨List.sorted_insertionSort entR _, List.perm_insertionSort entR _, ?_⟩
  exact (List.sorted_insertionSort entR _).imp (fun h => entR_date_not_gt h)

/-- C3: assuming all stored amounts are positive, every deposit-type entry
of the statement carries a non-negative signed amount and every
expense-type entry a non-positive one, regardless of the expense's
status. -/
theorem sign_invariant (s : Store) (uid : Nat) (start end_ : Option String) (inc : Bool)
    (hd : ∀ d ∈ s.deposits, 0 < d.amount) (he : ∀ e ∈ s.expenses, 0 < e.amount) :
    ∀ x ∈ fetch_user_statement s uid start end_ inc,
      (x.type = "Depósito" → 0 ≤ x.amount) ∧ (x.type = "Despesa" → x.amount ≤ 0) := by
  intro x hx
  rw [fetch_user_statement, List.mem_insertionSort, statementRows, List.mem_append] at hx
  rcases hx with hx | hx
  · rw [depRows] at hx
    obtain ⟨d, hdm, rfl⟩ := List.mem_map.mp hx
    have hpos := hd d (List.mem_of_mem_filter hdm)
    refine ⟨fun _ => le_of_lt hpos, fun hty => ?_⟩
    exact absurd hty (by simp [depRow])
  · rw [expRows] at hx
    obtain ⟨e, hem, hrow⟩ := List.mem_filterMap.mp hx
    rw [expRow] at hrow
    obtain ⟨t, _, rfl⟩ := Option.map_eq_some'.mp hrow
    have hpos := he e (List.mem_of_mem_filter hem)
    refine ⟨fun hty => absurd hty (by simp), fun _ => ?_⟩
    show -e.amount ≤ 0
    exact neg_nonpos.mpr (le_of_lt hpos)

/-- C3 witness: the sign invariant evaluated on a concrete store at the
deposit entry it produces. -/
theorem sign_invariant_witness :
    ((depRow w3store w3dep).type = "Depósito" → 0 ≤ (depRow w3store w3dep).amount)
      ∧ ((depRow w3store w3dep).type = "Despesa" → (depRow w3store w3dep).amount ≤ 0) :=
  sign_invariant w3store 1 none none true (by decide) (by decide)
    (depRow w3store w3dep) (by decide)

/-- C4: with includeRejected=false no returned entry has status
'rejeitado'; the deposits total is independent of the flag and every
matching deposit's row appears in the statement for either flag value;
and on the concrete scenario (one approved expense of 100, one rejected
expense of 50, same user and period) the expenses total is 100 with the
flag off and 150 with it on. -/
theorem rejection_exclusion :
    (∀ (s : Store) (uid : Nat) (start end_ : Option String),
        ∀ x ∈ fetch_user_statement s uid start end_ false, ¬(x.status = "rejeitado"))
    ∧ (∀ (s : Store) (uid : Nat) (start end_ : Option String) (inc : Bool),
        (calc_user_totals s uid start end_ inc).deposits
          = (calc_user_totals s uid start end_ false).deposits)
    ∧ (∀ (s : Store) (uid : Nat) (start end_ : Option String) (inc : Bool),
        ∀ d ∈ s.deposits, depMatches uid start end_ d = true →
          depRow s d ∈ fetch_user_statement s uid start end_ inc)
    ∧ (calc_user_totals c4store 1 none none false).expenses = 100
    ∧ (calc_user_totals c4store 1 none none true).expenses = 150 := by
  refine ⟨?_, fun _ _ _ _ _ => rfl, ?_, ?_, ?_⟩
  · intro s uid start end_ x hx
    rw [fetch_user_statement, List.mem_insertionSort, statementRows, List.mem_append] at hx
    rcases hx with hx | hx
    · rw [depRows] at hx
      obtain ⟨d, _, rfl⟩ := List.mem_map.mp hx
      simp [depRow]
    · rw [expRows] at hx
      obtain ⟨e, hem, hrow⟩ := List.mem_filterMap.mp hx
      rw [expRow] at hrow
      obtain ⟨t, _, rfl⟩ := Option.map_eq_some'.mp hrow
      have hp := (List.mem_filter.mp hem).2
      simp only [expMatches, Bool.and_eq_true, Bool.false_or, Bool.not_eq_true'] at hp
      show ¬(e.status = "rejeitado")
      intro hst
      rw [hst] at hp
      simp at hp
  · intro s uid start end_ inc d hd hm
    rw [fetch_user_statement, List.mem_insertionSort, statementRows, List.mem_append]
    left
    rw [depRows]
    exact List.mem_map_of_mem (depRow s) (List.mem_filter.mpr ⟨hd, hm⟩)
  · simp [calc_user_totals, c4store, c4e1, c4e2, c4dep, expMatches, inPeriod, truthy]
  · simp [calc_user_totals, c4store, c4e1, c4e2, c4dep, expMatches, inPeriod, truthy]
    norm_num

/-- C4 witness: the never-dropped-deposit part evaluated on the concrete
scenario store with includeRejected=true. -/
theorem rejection_exclusion_witness :
    (c4dep ∈ c4store.deposits ∧ depMatches 1 none none c4dep = true)
      ∧ depRow c4store c4dep ∈ fetch_user_statement c4store 1 none none true :=
  ⟨⟨by decide, by decide⟩,
    rejection_exclusion.2.2.1 c4store 1 none none true c4dep (by decide) (by decide)⟩

/-- C5 counterexample: `admin_set_expense_status` applied to expense id 7,
which does not exist in the store (its only expense has id 1), returns a
success with the store unchanged — the route runs its UPDATE without any
existence check — not a not-found error. -/
theorem set_status_missing_cex :
    admin_set_expense_status c5store 7 "aprovado" = Except.ok c5store
      ∧ ¬(∃ n, admin_set_expense_status c5store 7 "aprovado" = Except.error n) := by
  constructor
  · rfl
  · rintro ⟨n, hn⟩
    rw [show admin_set_expense_status c5store 7 "aprovado" = Except.ok c5store from rfl] at hn
    exact absurd hn (by simp)

/-- C5 amended: transitioning an Expense id absent from the store with a
valid target status succeeds (redirect with a success flash) and leaves
the store unchanged; the zero-row UPDATE is not detected. -/
theorem set_status_missing_id (s : Store) (id : Nat) (st : String)
    (hst : st = "aprovado" ∨ st = "rejeitado" ∨ st = "pendente")
    (hid : ∀ e ∈ s.expenses, ¬(e.id = id)) :
    admin_set_expense_status s id st = Except.ok s := by
  have hguard : (!(st == "aprovado" || st == "rejeitado" || st == "pendente")) = false := by
    rcases hst with h | h | h <;> subst h <;> rfl
  rw [admin_set_expense_status, hguard]
  have hmap : s.expenses.map (updExp id st) = s.expenses := by
    have h1 : s.expenses.map (updExp id st) = s.expenses.map (fun e => e) :=
      List.map_congr_left (fun e he => by simp [updExp, hid e he])
    rw [h1, List.map_id']
  simp only [Bool.false_eq_true, if_false, hmap]

/-- C5 witness: the amended no-op behaviour evaluated at expense id 9 on a
store whose only expense has id 1. -/
theorem set_status_missing_id_witness :
    (∀ e ∈ c5store.expenses, ¬(e.id = 9))
      ∧ admin_set_expense_status c5store 9 "aprovado" = Except.ok c5store :=
  ⟨by decide, set_status_missing_id c5store 9 "aprovado" (Or.inl rfl) (by decide)⟩

/-- C6: setting the status of an existing expense to the same valid target
twice is idempotent — if the first call succeeds with resulting store s₁,
the second call on s₁ succeeds and returns s₁ unchanged. -/
theorem set_status_idempotent (s : Store) (id : Nat) (st : String) (s₁ : Store)
    (_hex : ∃ e ∈ s.expenses, e.id = id)
    (h1 : admin_set_expense_status s id st = Except.ok s₁) :
    admin_set_expense_status s₁ id st = Except.ok s₁ := by
  rw [admin_set_expense_status] at h1 ⊢
  by_cases hg : (!(st == "aprovado" || st == "rejeitado" || st == "pendente")) = true
  · rw [if_pos hg] at h1
    exact absurd h1 (by simp)
  · rw [if_neg hg] at h1 ⊢
    have hs₁ : { s with expenses := s.expenses.map (updExp id st) } = s₁ :=
      Except.ok.inj h1
    subst hs₁
    have hmap : ∀ l : List Expense, (l.map (updExp id st)).map (updExp id st)
        = l.map (updExp id st) := by
      intro l
      rw [List.map_map]
      refine List.map_congr_left (fun e _ => ?_)
      show updExp id st (updExp id st e) = updExp id st e
      by_cases hc : (e.id == id) = true
      · simp [updExp, hc]
      · simp only [Bool.not_eq_true] at hc
        simp [updExp, hc]
    simp only [hmap]

/-- C6 witness: the idempotence evaluated on a concrete store whose expense
id 3 is set to 'rejeitado' twice. -/
theorem set_status_idempotent_witness :
    (∃ e ∈ w6store.expenses, e.id = 3)
      ∧ admin_set_expense_status w6store₁ 3 "rejeitado" = Except.ok w6store₁ :=
  ⟨by decide, set_status_idempotent w6store 3 "rejeitado" w6store₁ (by decide) rfl⟩

/-- C7: a target status outside {pendente, aprovado, rejeitado} is rejected
with the 400 validation error; a target inside the set performs the
update, and any expense carrying the requested id — whatever its current
status — ends up with the target status, so any state may transition to
any other state. -/
theorem set_status_validation (s : Store) (id : Nat) (st : String) :
    (¬(st = "aprovado" ∨ st = "rejeitado" ∨ st = "pendente") →
        admin_set_expense_status s id st = Except.error 400)
      ∧ ((st = "aprovado" ∨ st = "rejeitado" ∨ st = "pendente") →
        admin_set_expense_status s id st
            = Except.ok { s with expenses := s.expenses.map (updExp id st) }
          ∧ ∀ e ∈ s.expenses, e.id = id →
              { e with status := st } ∈ s.expenses.map (updExp id st)) := by
  constructor
  · intro hv
    push_neg at hv
    obtain ⟨h1, h2, h3⟩ := hv
    rw [admin_set_expense_status]
    have hguard : (!(st == "aprovado" || st == "rejeitado" || st == "pendente")) = true := by
      simp only [Bool.not_eq_true', Bool.or_eq_false_iff]
      exact ⟨⟨beq_eq_false_iff_ne.mpr h1, beq_eq_false_iff_ne.mpr h2⟩,
        beq_eq_false_iff_ne.mpr h3⟩
    rw [if_pos hguard]
  · intro hv
    have hguard : (!(st == "aprovado" || st == "rejeitado" || st == "pendente")) = false := by
      rcases hv with h | h | h <;> subst h <;> rfl
    constructor
    · rw [admin_set_expense_status, hguard]
      simp only [Bool.false_eq_true, if_false]
    · intro e he hid
      have : updExp id st e = { e with status := st } := by
        simp [updExp, hid]
      exact this ▸ List.mem_map_of_mem (updExp id st) he

/-- C7 witness: the validation evaluated at the invalid target 'cancelado'
(rejected with 400) and the valid target 'aprovado' (update performed, the
rejected expense of the store transitions to approved). -/
theorem set_status_validation_witness :
    (¬("cancelado" = "aprovado" ∨ "cancelado" = "rejeitado" ∨ "cancelado" = "pendente"))
      ∧ admin_set_expense_status w7store 1 "cancelado" = Except.error 400
      ∧ (admin_set_expense_status w7store 1 "aprovado"
            = Except.ok { w7store with expenses := w7store.expenses.map (updExp 1 "aprovado") }
          ∧ ∀ e ∈ w7store.expenses, e.id = 1 →
              { e with status := "aprovado" } ∈ w7store.expenses.map (updExp 1 "aprovado")) :=
  ⟨by decide, (set_status_validation w7store 1 "cancelado").1 (by decide),
    (set_status_validation w7store 1 "aprovado").2 (Or.inl rfl)⟩

/-- C8 counterexample: a range whose end 2024-01-01 precedes its start
2024-02-01 is not rejected by either operation — both return normally, with
zero totals and an empty statement, on a store that does hold a deposit
(visible when no period is passed). -/
theorem range_validation_cex :
    calc_user_totals c8store 1 (some "2024-02-01") (some "2024-01-01") false = ⟨0, 0, 0⟩
      ∧ fetch_user_statement c8store 1 (some "2024-02-01") (some "2024-01-01") false = []
      ∧ calc_user_totals c8store 1 none none false = ⟨10, 0, 10⟩ := by
  refine ⟨?_, by decide, ?_⟩
  · simp [calc_user_totals, c8store, c8dep, depMatches, expMatches, inPeriod, truthy,
      strLeB, strLtB, charsLt]
  · simp [calc_user_totals, c8store, c8dep, depMatches, expMatches, inPeriod, truthy]

theorem inPeriod_reversed {a b : String} (ha : ¬(a = "")) (hb : ¬(b = ""))
    (hba : strLtB b a = true) : ∀ d : String, inPeriod (some a) (some b) d = false := by
  intro d
  rw [inPeriod]
  have ht : (truthy (some a) && truthy (some b)) = true := by
    simp [truthy, ha, hb]
  rw [if_pos ht]
  cases h1 : strLeB (Option.getD (some a) "") d
  · rw [Bool.false_and]
  · cases h2 : strLeB d (Option.getD (some b) "")
    · rw [Bool.and_false]
    · exfalso
      have hab : strLeB a b = true := strLeB_trans h1 h2
      rw [strLeB, hba] at hab
      exact absurd hab (by simp)

/-- C8 amended: a range with end before start is not rejected with a
ValidationError — no validation exists — it is silently passed to the
BETWEEN filter, which then matches no row: both operations accept the
malformed range and return zero totals and an empty statement. -/
theorem reversed_range_silent (s : Store) (uid : Nat) (a b : String) (inc : Bool)
    (ha : ¬(a = "")) (hb : ¬(b = "")) (hba : strLtB b a = true) :
    calc_user_totals s uid (some a) (some b) inc = ⟨0, 0, 0⟩
      ∧ fetch_user_statement s uid (some a) (some b) inc = [] := by
  have hper := inPeriod_reversed ha hb hba
  have hd : s.deposits.filter (depMatches uid (some a) (some b)) = [] := by
    rw [List.filter_eq_nil_iff]
    intro d _
    simp [depMatches, hper]
  have he : s.expenses.filter (expMatches uid (some a) (some b) inc) = [] := by
    rw [List.filter_eq_nil_iff]
    intro e _
    simp [expMatches, hper]
  constructor
  · rw [calc_user_totals, hd, he]
    simp
  · rw [fetch_user_statement, statementRows, depRows, expRows, hd, he]
    rfl

/-- C8 witness: the amended silent-acceptance behaviour evaluated at the
concrete reversed range [2024-02-01, 2024-01-01] on the store holding one
deposit. -/
theorem reversed_range_silent_witness :
    (strLtB "2024-01-01" "2024-02-01" = true)
      ∧ calc_user_totals c8store 1 (some "2024-02-01") (some "2024-01-01") true = ⟨0, 0, 0⟩
      ∧ fetch_user_statement c8store 1 (some "2024-02-01") (some "2024-01-01") true = [] :=
  ⟨by decide,
    (reversed_range_silent c8store 1 "2024-02-01" "2024-01-01" true
      (by decide) (by decide) (by decide)).1,
    (reversed_range_silent c8store 1 "2024-02-01" "2024-01-01" true
      (by decide) (by decide) (by decide)).2⟩

theorem inPeriod_no_end (x : String) (d : String) : inPeriod (some x) none d = true := by
  rw [inPeriod]
  simp [truthy]

theorem inPeriod_no_start (x : String) (d : String) : inPeriod none (some x) d = true := by
  rw [inPeriod]
  simp [truthy]

theorem inPeriod_none (d : String) : inPeriod none none d = true := rfl

/-- C10: supplying only one endpoint of the period — start without end or
end without start — leaves the period filter inactive: both operations
return exactly the all-time result. -/
theorem half_period_ignored (s : Store) (uid : Nat) (x : String) (inc : Bool) :
    calc_user_totals s uid (some x) none inc = calc_user_totals s uid none none inc
      ∧ calc_user_totals s uid none (some x) inc = calc_user_totals s uid none none inc
      ∧ fetch_user_statement s uid (some x) none inc = fetch_user_statement s uid none none inc
      ∧ fetch_user_statement s uid none (some x) inc
          = fetch_user_statement s uid none none inc := by
  have hdep₁ : ∀ l : List Deposit, l.filter (depMatches uid (some x) none)
      = l.filter (depMatches uid none none) :=
    fun l => List.filter_congr (fun d _ => by
      simp [depMatches, inPeriod_no_end, inPeriod_none])
  have hdep₂ : ∀ l : List Deposit, l.filter (depMatches uid none (some x))
      = l.filter (depMatches uid none none) :=
    fun l => List.filter_congr (fun d _ => by
      simp [depMatches, inPeriod_no_start, inPeriod_none])
  have hexp₁ : ∀ l : List Expense, l.filter (expMatches uid (some x) none inc)
      = l.filter (expMatches uid none none inc) :=
    fun l => List.filter_congr (fun e _ => by
      simp [expMatches, inPeriod_no_end, inPeriod_none])
  have hexp₂ : ∀ l : List Expense, l.filter (expMatches uid none (some x) inc)
      = l.filter (expMatches uid none none inc) :=
    fun l => List.filter_congr (fun e _ => by
      simp [expMatches, inPeriod_no_start, inPeriod_none])
  refine ⟨?_, ?_, ?_, ?_⟩
  · rw [calc_user_totals, calc_user_totals, hdep₁, hexp₁]
  · rw [calc_user_totals, calc_user_totals, hdep₂, hexp₂]
  · rw [fetch_user_statement, fetch_user_statement, statementRows, statementRows,
      depRows, depRows, expRows, expRows, hdep₁, hexp₁]
  · rw [fetch_user_statement, fetch_user_statement, statementRows, statementRows,
      depRows, depRows, expRows, expRows, hdep₂, hexp₂]

end RBN
